import Mathlib

/-!
Verification of the python-chef-client-installer plugin (chef_client.py and
tasks.py) against its specification.

The two Python modules are shallowly embedded below.  External effects
(subprocess execution, file writes, downloads, logging) are recorded as an
event trace, and the outcome of external commands (exit codes, captured
output) together with the behaviour of external libraries (the json module,
temporary-file naming) is supplied by a `World` structure.  Every function is
translated directly from the source; Python exceptions become `Except`
results.
-/

/-- JSON values, as produced by the external `json` library. -/
inductive Json where
  | null : Json
  | jbool : Bool → Json
  | jnum : Int → Json
  | jstr : String → Json
  | jarr : List Json → Json
  | jobj : List (String × Json) → Json

/-- Python values that can appear as task keyword arguments or as the
`attributes` argument of `run_chef`: strings, parsed JSON objects, or None. -/
inductive PyVal where
  | str : String → PyVal
  | json : Json → PyVal
  | pynone : PyVal

/-- Errors raised by the embedded code: `sudoError` models the SudoError
class, `chefError` the ChefError class, `procError` an uncaught
subprocess.CalledProcessError, and `typeError` a Python TypeError raised when
a function is called with a required positional argument missing. -/
inductive PErr where
  | sudoError : String → PErr
  | chefError : String → PErr
  | procError : String → PErr
  | typeError : String → PErr
deriving DecidableEq

/-- The message text carried by an error (Python str(exc)). -/
def errText : PErr → String
  | .sudoError m => m
  | .chefError m => m
  | .procError m => m
  | .typeError m => m

/-- Observable external effects, in execution order. -/
inductive Event where
  | exec : List String → Event
  | log : String → Event
  | download : String → String → Event
  | chmod : String → Event
  | removeFile : String → Event
  | writeTempFile : String → Event
  | writeAttrFile : PyVal → Event

/-- The host environment and external libraries: exit codes and captured
output of executed commands, the behaviour of `json.loads` and of Python
`str()` on parsed JSON, and the names handed out for temporary files. -/
structure World where
  exitCode : List String → Nat
  stdout : List String → String
  stderr : List String → String
  jsonLoads : String → Option Json
  jsonStr : Json → String
  scriptPath : String
  tmpPath : String
  attrPath : String

/-- A computation: the trace of events it performed and its outcome. -/
abbrev M (α : Type) := List Event × Except PErr α

/-- Sequencing: on error the remaining steps do not run. -/
def mbind {α β : Type} (x : M α) (f : α → M β) : M β :=
  match x with
  | (t, Except.error e) => (t, Except.error e)
  | (t, Except.ok a) => (t ++ (f a).1, (f a).2)

/-- A pure result with no events. -/
def mret {α : Type} (a : α) : M α := ([], Except.ok a)

/-- Python str.join with a separator. -/
def joinWith (sep : String) : List String → String
  | [] => ""
  | [x] => x
  | x :: y :: xs => x ++ sep ++ joinWith sep (y :: xs)

/-- Python repr of a list of strings, as used by CalledProcessError. -/
def pyListRepr (l : List String) : String :=
  "[" ++ joinWith ", " (l.map (fun s => "\x27" ++ s ++ "\x27")) ++ "]"

/-- The message of subprocess.CalledProcessError. -/
def calledProcessErrorMsg (cmd : List String) (code : Nat) : String :=
  "Command \x27" ++ pyListRepr cmd ++ "\x27 returned non-zero exit status " ++ toString code

/-- The full command list run by `sudo`. -/
def sudoCmd (args : List String) : List String := "/usr/bin/sudo" :: args

/-- The log line emitted by `sudo` before running a command. -/
def runningMsg (args : List String) : String :=
  "Running: \x27" ++ joinWith " " (sudoCmd args) ++ "\x27"

/-- chef_client.sudo: run a command under /usr/bin/sudo with stdout/stderr
captured into temporary buffers; on non-zero exit raise SudoError with a
message embedding the captured output, on success return nothing (the
captured output is closed and discarded). -/
def sudoExec (w : World) (args : List String) : M Unit :=
  if w.exitCode (sudoCmd args) = 0 then
    ([Event.log (runningMsg args), Event.exec (sudoCmd args)], Except.ok ())
  else
    ([Event.log (runningMsg args), Event.exec (sudoCmd args)],
     Except.error (PErr.sudoError
       (calledProcessErrorMsg (sudoCmd args) (w.exitCode (sudoCmd args)) ++
        "\nSTDOUT:\n" ++ w.stdout (sudoCmd args) ++
        "\nSTDERR:" ++ w.stderr (sudoCmd args))))

/-- chef_client.sudo_write_file: write the contents to a temporary file and
move it into place with sudo. -/
def sudo_write_file (w : World) (filename contents : String) : M Unit :=
  mbind ([Event.writeTempFile contents], Except.ok ())
    (fun _ => sudoExec w ["mv", w.tmpPath, filename])

/-- Match of the regex (\d+\.\d+\.\d+) at the start of the character list:
a maximal nonempty digit run, a dot, a second run, a dot, a third run.
For this pattern maximal-munch agrees with the backtracking semantics of
re.search, because a digit run followed by anything but a dot can never be
repaired by giving back characters. -/
def matchCore (l : List Char) : Option (List Char) :=
  if (l.takeWhile Char.isDigit).isEmpty then none else
    match l.dropWhile Char.isDigit with
    | '.' :: r2 =>
      if (r2.takeWhile Char.isDigit).isEmpty then none else
        match r2.dropWhile Char.isDigit with
        | '.' :: r4 =>
          if (r4.takeWhile Char.isDigit).isEmpty then none else
            some (l.takeWhile Char.isDigit ++
                  '.' :: (r2.takeWhile Char.isDigit ++
                          '.' :: r4.takeWhile Char.isDigit))
        | _ => none
    | _ => none

/-- re.search of (\d+\.\d+\.\d+): try each start position from the left. -/
def searchCore : List Char → Option (List Char)
  | [] => none
  | c :: cs =>
    match matchCore (c :: cs) with
    | some m => some m
    | none => searchCore cs

/-- The ChefError message for a version string with no numeric part. -/
def chefVersionErrMsg (version_string : String) : String :=
  "Failed to read chef version - \x27" ++ version_string ++ "\x27"

/-- chef_client.equal_versions.extract_numeric_version: the x.y.z part of the
version, or ChefError when the regex finds no match. -/
def extract_numeric_version (version_string : String) : Except PErr String :=
  match searchCore version_string.data with
  | some m => Except.ok (String.mk m)
  | none => Except.error (PErr.chefError (chefVersionErrMsg version_string))

/-- chef_client.equal_versions: compare the extracted numeric parts. -/
def equal_versions (version1 version2 : String) : Except PErr Bool := do
  let a ← extract_numeric_version version1
  let b ← extract_numeric_version version2
  pure (a == b)

/-- The command `sudo which apt-get` used by the apt_platform probe. -/
def whichAptCmd : List String := ["/usr/bin/sudo", "which", "apt-get"]

/-- The package removal command issued (through sudo) by uninstall_chef. -/
def aptRemoveCmd : List String := sudoCmd ["apt-get", "remove", "chef", "-y"]

/-- Map a SudoError to a ChefError with a prefixed message; any other
outcome is unchanged (models `except SudoError` re-raise as ChefError). -/
def wrapSudoErr (pre : String) (x : M α) : M α :=
  (x.1, match x.2 with
        | Except.error (PErr.sudoError m) => Except.error (PErr.chefError (pre ++ m))
        | r => r)

/-- Map any error to a ChefError with a prefixed message (models
`except Exception` re-raise as ChefError). -/
def wrapAnyErr (pre : String) (x : M α) : M α :=
  (x.1, match x.2 with
        | Except.error e => Except.error (PErr.chefError (pre ++ errText e))
        | r => r)

/-- chef_client.uninstall_chef.  The inner apt_platform probe runs
`sudo which apt-get` and returns `which_exitcode != 0`, exactly as in the
source; when that test is true the function logs and runs
`apt-get remove chef -y` (SudoError becoming ChefError), otherwise it logs
that uninstall is unimplemented and returns. -/
def uninstall_chef (w : World) : M Unit :=
  if w.exitCode whichAptCmd ≠ 0 then
    mbind ([Event.exec whichAptCmd,
            Event.log "Uninstalling old chef-client via apt-get"], Except.ok ())
      (fun _ => wrapSudoErr "chef-client uninstall failed on:\n"
                  (sudoExec w ["apt-get", "remove", "chef", "-y"]))
  else
    ([Event.exec whichAptCmd,
      Event.log "Chef uninstall is unimplemented for this platform, proceeding anyway"],
     Except.ok ())

/-- The command `sudo which chef-client`. -/
def whichChefCmd : List String := ["/usr/bin/sudo", "which", "chef-client"]

/-- The command `sudo chef-client --version`. -/
def chefVersionCmd : List String := ["/usr/bin/sudo", "chef-client", "--version"]

/-- chef_client.current_chef_version: probe for chef-client with `which`,
returning None when absent, otherwise the output of
`chef-client --version` (check_output raising on non-zero exit). -/
def current_chef_version (w : World) : M (Option String) :=
  if w.exitCode whichChefCmd ≠ 0 then
    ([Event.exec whichChefCmd], Except.ok none)
  else
    ([Event.exec whichChefCmd, Event.exec chefVersionCmd],
     if w.exitCode chefVersionCmd = 0 then
       Except.ok (some (w.stdout chefVersionCmd))
     else
       Except.error (PErr.procError
         (calledProcessErrorMsg chefVersionCmd (w.exitCode chefVersionCmd))))

/-- The fixed installer URL (CHEF_INSTALLER_URL in the source). -/
def CHEF_INSTALLER_URL : String := "https://www.opscode.com/chef/install.sh"

/-- The contents written to /etc/chef/client.rb, after substitution of the
server url, environment and validator name into the template. -/
def clientRbContents (server_url server_environment chef_validator_name : String) : String :=
  "\nlog_level          :info\nlog_location       \"/var/log/chef/client.log\"\nssl_verify_mode    :verify_none\nvalidation_client_name \"" ++ chef_validator_name ++
  "\"\nvalidation_key         \"/etc/chef/validation.pem\"\nclient_key             \"/etc/chef/client.pem\"\nchef_server_url    \"" ++ server_url ++
  "\"\nenvironment    \"" ++ server_environment ++
  "\"\nfile_cache_path    \"/var/chef/cache\"\nfile_backup_path   \"/var/chef/backup\"\npid_file           \"/var/run/chef/client.pid\"\nChef::Log::Formatter.show_time = true\n        "

/-- The try-block of the install: download the install script, make it
executable, run it under sudo with the desired version, then remove it;
any failure is re-raised as ChefError by the caller. -/
def downloadAndRun (w : World) (chef_version : String) : M Unit :=
  mbind ([Event.download CHEF_INSTALLER_URL w.scriptPath,
          Event.chmod w.scriptPath], Except.ok ())
    (fun _ => mbind (sudoExec w [w.scriptPath, "-v", chef_version])
      (fun _ => ([Event.removeFile w.scriptPath], Except.ok ())))

/-- Lines 137-170 of chef_client.install_chef: the fresh-install and
configuration tail executed once any reconciliation is done - fetch and run
the installer, create the chef directories, then write the validation key
and client.rb via write-then-privileged-move. -/
def installAndConfigure (w : World)
    (chef_version chef_server_url chef_environment chef_validator_name chef_validation : String) :
    M Unit :=
  mbind ([Event.log ("Installing chef-client [chef_version=" ++ chef_version ++ "]")], Except.ok ())
    (fun _ =>
  mbind (wrapAnyErr "chef-client install failed on:\n" (downloadAndRun w chef_version))
    (fun _ =>
  mbind ([Event.log ("Setting up chef-client [chef_server=\n" ++ chef_server_url ++ "]")], Except.ok ())
    (fun _ =>
  mbind (sudoExec w ["mkdir", "/etc/chef"]) (fun _ =>
  mbind (sudoExec w ["mkdir", "/var/chef"]) (fun _ =>
  mbind (sudoExec w ["mkdir", "/var/log/chef"]) (fun _ =>
  mbind (sudo_write_file w "/etc/chef/validation.pem" chef_validation) (fun _ =>
  sudo_write_file w "/etc/chef/client.rb"
    (clientRbContents chef_server_url chef_environment chef_validator_name))))))))

/-- chef_client.install_chef: probe the installed version; on a truthy
result (Python truthiness: not None and not the empty string) either return
immediately when equal_versions holds or uninstall first; then fall through
to the fresh-install and configuration tail. -/
def install_chef (w : World)
    (chef_version chef_server_url chef_environment chef_validator_name chef_validation : String) :
    M Unit :=
  mbind (current_chef_version w) (fun current_version =>
    match current_version with
    | some s =>
      if s.isEmpty then
        installAndConfigure w chef_version chef_server_url chef_environment
          chef_validator_name chef_validation
      else
        mbind ([], equal_versions s chef_version) (fun eq =>
          if eq then mret ()
          else mbind (uninstall_chef w) (fun _ =>
            installAndConfigure w chef_version chef_server_url chef_environment
              chef_validator_name chef_validation))
    | none =>
      installAndConfigure w chef_version chef_server_url chef_environment
        chef_validator_name chef_validation)

/-- Python str() of a task-argument value. -/
def pvStr (w : World) : PyVal → String
  | .str s => s
  | .json j => w.jsonStr j
  | .pynone => "None"

/-- The full agent invocation command built by run_chef. -/
def chefRunCmd (w : World) (runlist : String) : List String :=
  ["chef-client", "-o", runlist, "-j", w.attrPath, "--force-formatter"]

/-- chef_client.run_chef: when the attributes argument is a string, parse it
as JSON (the empty string being replaced by the literal string consisting of
an opening and a closing curly brace, i.e. the empty JSON object, because of
`attributes or ...`), failing with ChefError on invalid JSON; then dump the
attributes to a temporary file and run the agent under sudo, removing the
temporary file on success and wrapping a SudoError into a descriptive
ChefError on failure. -/
def run_chef (w : World) (runlist : String) (attributes : PyVal) : M Unit :=
  let resolved : Except PErr PyVal :=
    match attributes with
    | .str s =>
      match w.jsonLoads (if s.isEmpty then "\x7b\x7d" else s) with
      | some j => Except.ok (.json j)
      | none => Except.error (PErr.chefError ("Failed json validation of chef attributes:\n" ++ s))
    | v => Except.ok v
  mbind ([], resolved) (fun attrs =>
    mbind ([Event.writeAttrFile attrs], Except.ok ())
      (fun _ =>
        match sudoExec w (chefRunCmd w runlist) with
        | (t, Except.ok ()) => (t ++ [Event.removeFile w.attrPath], Except.ok ())
        | (t, Except.error (PErr.sudoError m)) =>
            (t, Except.error (PErr.chefError
              ("The chef run failed\nrunlist: " ++ runlist ++
               "\nattributes: " ++ pvStr w attrs ++ "\nexception: \n" ++ m)))
        | r => r))

/-- Task keyword arguments. -/
abbrev Kwargs := List (String × PyVal)

/-- Keyword lookup. -/
def lookupKw (kw : Kwargs) (k : String) : Option PyVal :=
  (kw.find? (fun p => p.1 == k)).map Prod.snd

/-- The required_fields set of set_up_chef_client, in source order. -/
def requiredFields : List String :=
  ["chef_version", "chef_server_url", "chef_environment",
   "chef_validator_name", "chef_validation"]

/-- required_fields.difference(kwargs.keys()). -/
def missingFields (kw : Kwargs) : List String :=
  requiredFields.filter (fun f => (lookupKw kw f).isNone)

/-- The ChefError message naming the missing fields. -/
def missingMsg (missing : List String) : String :=
  "The following required field(s) are missing: " ++ joinWith ", " missing

/-- The string value of a keyword argument (its Python str if present). -/
def kwStr (w : World) (kw : Kwargs) (k : String) : String :=
  match lookupKw kw k with
  | some v => pvStr w v
  | none => ""

/-- chef_client.set_up_chef_client: the wrapper checks for the five required
fields, raising ChefError naming the missing ones before anything runs;
otherwise it calls install_chef with those fields and only then invokes the
wrapped task body. -/
def set_up_chef_client (w : World) (body : Kwargs → M Unit) (kw : Kwargs) : M Unit :=
  if (missingFields kw).isEmpty then
    mbind (install_chef w (kwStr w kw "chef_version") (kwStr w kw "chef_server_url")
            (kwStr w kw "chef_environment") (kwStr w kw "chef_validator_name")
            (kwStr w kw "chef_validation"))
      (fun _ => body kw)
  else
    ([], Except.error (PErr.chefError (missingMsg (missingFields kw))))

/-- tasks.install, invoked with keyword arguments: the decorated body runs
run_chef on the chef_install_runlist and chef_attributes arguments; if
either of those positional parameters is absent from the invocation, Python
raises a TypeError at the call of the wrapped function. -/
def install_task (w : World) (kw : Kwargs) : M Unit :=
  set_up_chef_client w (fun kw =>
    match lookupKw kw "chef_install_runlist", lookupKw kw "chef_attributes" with
    | some rl, some attrs => run_chef w (pvStr w rl) attrs
    | _, _ => ([], Except.error (PErr.typeError
        "install() takes at least 2 arguments"))) kw

/-- Specification-level notion: a nonempty list consisting of digits only. -/
def isDigitRun (l : List Char) : Bool := !l.isEmpty && l.all Char.isDigit

/-- Split a character list at its first dot, if any. -/
def coreSplit : List Char → Option (List Char × List Char)
  | [] => none
  | c :: t =>
    if c = '.' then some ([], t)
    else (coreSplit t).map (fun p => (c :: p.1, p.2))

/-- Specification-level notion of an x.y.z numeric core, following the
words of the spec: a nonempty digit run, a dot, a nonempty digit run, a dot,
and a nonempty digit run, with nothing else. -/
def isCoreShape (l : List Char) : Bool :=
  match coreSplit l with
  | some (a, rest) =>
    match coreSplit rest with
    | some (b, c) => isDigitRun a && isDigitRun b && isDigitRun c
    | none => false
  | none => false

/-- Specification-level notion: the string contains an x.y.z numeric core as
a contiguous substring (some drop-then-take slice has the core shape). -/
def hasNumericCore (s : String) : Bool :=
  (List.range (s.data.length + 1)).any fun i =>
    (List.range (s.data.length + 1)).any fun j =>
      isCoreShape ((s.data.drop i).take j)

/-- A host on which every command succeeds, chef-client reports version
11.4.4, and only the empty JSON object text parses. -/
def wAllOk : World where
  exitCode := fun _ => 0
  stdout := fun _ => "Chef: 11.4.4\n"
  stderr := fun _ => ""
  jsonLoads := fun s => if s = "\x7b\x7d" then some (Json.jobj []) else none
  jsonStr := fun _ => ""
  scriptPath := "/tmp/tmpAAAAinstall.sh"
  tmpPath := "/tmp/tmpBBBB"
  attrPath := "/tmp/tmpCCCCchef_attributes.json"

/-- A host on which every command fails with exit code 1 and produces the
captured output OUT and ERR. -/
def wFail : World where
  exitCode := fun _ => 1
  stdout := fun _ => "OUT"
  stderr := fun _ => "ERR"
  jsonLoads := fun _ => none
  jsonStr := fun _ => ""
  scriptPath := "/tmp/tmpAAAAinstall.sh"
  tmpPath := "/tmp/tmpBBBB"
  attrPath := "/tmp/tmpCCCCchef_attributes.json"

/-- A host with no chef-client on the path (the which probe fails) where
every other command succeeds. -/
def wNoChef : World where
  exitCode := fun c => if c = whichChefCmd then 1 else 0
  stdout := fun _ => ""
  stderr := fun _ => ""
  jsonLoads := fun _ => none
  jsonStr := fun _ => ""
  scriptPath := "/tmp/tmpAAAAinstall.sh"
  tmpPath := "/tmp/tmpBBBB"
  attrPath := "/tmp/tmpCCCCchef_attributes.json"

/-- A host with chef-client 11.2.0 installed, apt-get absent from the path
(so the which probe for apt-get fails) and all other commands succeeding. -/
def wMismatch : World where
  exitCode := fun c => if c = whichAptCmd then 1 else 0
  stdout := fun _ => "Chef: 11.2.0\n"
  stderr := fun _ => ""
  jsonLoads := fun _ => none
  jsonStr := fun _ => ""
  scriptPath := "/tmp/tmpAAAAinstall.sh"
  tmpPath := "/tmp/tmpBBBB"
  attrPath := "/tmp/tmpCCCCchef_attributes.json"

/-- A task body that does nothing, for exercising the decorator alone. -/
def emptyBody : Kwargs → M Unit := fun _ => mret ()

/-- An invocation carrying only chef_version. -/
def kwOnlyVersion : Kwargs := [("chef_version", PyVal.str "11.4.4")]

/-- An invocation carrying the five setup fields but no runlist and no
attributes parameter. -/
def kwFive : Kwargs :=
  [("chef_version", PyVal.str "11.4.4"),
   ("chef_server_url", PyVal.str "https://chef.example"),
   ("chef_environment", PyVal.str "_default"),
   ("chef_validator_name", PyVal.str "chef-validator"),
   ("chef_validation", PyVal.str "PEMDATA")]

/-- A full invocation whose chef_attributes payload is a string that is not
valid JSON. -/
def kwBadJson : Kwargs :=
  kwFive ++ [("chef_install_runlist", PyVal.str "recipe[app]"),
             ("chef_attributes", PyVal.str "not json")]

lemma data_mk (l : List Char) : (String.mk l).data = l := rfl

lemma dropWhile_eq_self_of_takeWhile_nil {p : Char → Bool} {r : List Char}
    (hr : r.takeWhile p = []) : r.dropWhile p = r := by
  cases r with
  | nil => rfl
  | cons c cs =>
    cases hc : p c with
    | true => simp [List.takeWhile_cons, hc] at hr
    | false => simp [List.dropWhile_cons, hc]

lemma takeWhile_append_all {p : Char → Bool} {d r : List Char}
    (hd : ∀ c ∈ d, p c = true) (hr : r.takeWhile p = []) :
    (d ++ r).takeWhile p = d ∧ (d ++ r).dropWhile p = r := by
  induction d with
  | nil => exact ⟨hr, dropWhile_eq_self_of_takeWhile_nil hr⟩
  | cons c cs ih =>
    have hc : p c = true := hd c (List.mem_cons_self c cs)
    have ih' := ih (fun x hx => hd x (List.mem_cons_of_mem c hx))
    simp [List.takeWhile_cons, List.dropWhile_cons, hc, ih'.1, ih'.2]

lemma takeWhile_nil_of_nondigit {q : List Char}
    (hq : ∀ c ∈ q, c.isDigit = false) : q.takeWhile Char.isDigit = [] := by
  cases q with
  | nil => rfl
  | cons c cs => simp [List.takeWhile_cons, hq c (List.mem_cons_self c cs)]

lemma isEmpty_false_of_ne_nil {l : List Char} (h : l ≠ []) : l.isEmpty = false := by
  cases l with
  | nil => exact absurd rfl h
  | cons c cs => rfl

lemma matchCore_parts {d1 d2 d3 r : List Char}
    (h1 : d1 ≠ []) (hd1 : ∀ c ∈ d1, c.isDigit = true)
    (h2 : d2 ≠ []) (hd2 : ∀ c ∈ d2, c.isDigit = true)
    (h3 : d3 ≠ []) (hd3 : ∀ c ∈ d3, c.isDigit = true)
    (hr : r.takeWhile Char.isDigit = []) :
    matchCore (d1 ++ '.' :: (d2 ++ '.' :: (d3 ++ r))) =
      some (d1 ++ '.' :: (d2 ++ '.' :: d3)) := by
  have hdot : ('.' :: (d2 ++ '.' :: (d3 ++ r))).takeWhile Char.isDigit = [] := by
    simp [List.takeWhile_cons]
  have t1 := takeWhile_append_all hd1 hdot
  have hdot2 : ('.' :: (d3 ++ r)).takeWhile Char.isDigit = [] := by
    simp [List.takeWhile_cons]
  have t2 := takeWhile_append_all hd2 hdot2
  have t3 := takeWhile_append_all hd3 hr
  simp [matchCore, t1.1, t1.2, t2.1, t2.2, t3.1,
    isEmpty_false_of_ne_nil h1, isEmpty_false_of_ne_nil h2, isEmpty_false_of_ne_nil h3]

lemma matchCore_nondigit_head {c : Char} {t : List Char} (hc : c.isDigit = false) :
    matchCore (c :: t) = none := by
  simp [matchCore, List.takeWhile_cons, hc]

lemma searchCore_append_nondigit {p : List Char}
    (hp : ∀ c ∈ p, c.isDigit = false) (l : List Char) :
    searchCore (p ++ l) = searchCore l := by
  induction p with
  | nil => rfl
  | cons c cs ih =>
    have hc := hp c (List.mem_cons_self c cs)
    have ih' := ih (fun x hx => hp x (List.mem_cons_of_mem c hx))
    simp [searchCore, matchCore_nondigit_head hc, ih']

lemma searchCore_of_core {d1 d2 d3 q : List Char}
    (h1 : d1 ≠ []) (hd1 : ∀ c ∈ d1, c.isDigit = true)
    (h2 : d2 ≠ []) (hd2 : ∀ c ∈ d2, c.isDigit = true)
    (h3 : d3 ≠ []) (hd3 : ∀ c ∈ d3, c.isDigit = true)
    (hq : ∀ c ∈ q, c.isDigit = false) :
    searchCore (d1 ++ '.' :: (d2 ++ '.' :: (d3 ++ q))) =
      some (d1 ++ '.' :: (d2 ++ '.' :: d3)) := by
  have hmc := matchCore_parts h1 hd1 h2 hd2 h3 hd3 (takeWhile_nil_of_nondigit hq)
  cases d1 with
  | nil => exact absurd rfl h1
  | cons c cs =>
    rw [List.cons_append] at hmc ⊢
    simp [searchCore, hmc]

lemma coreSplit_digits {d r : List Char} (hd : ∀ c ∈ d, c.isDigit = true) :
    coreSplit (d ++ '.' :: r) = some (d, r) := by
  induction d with
  | nil => simp [coreSplit]
  | cons c cs ih =>
    have hc : c.isDigit = true := hd c (List.mem_cons_self c cs)
    have hne : ¬(c = '.') := by
      intro h
      rw [h] at hc
      simp at hc
    simp [coreSplit, hne, ih (fun x hx => hd x (List.mem_cons_of_mem c hx))]

lemma isDigitRun_of {d : List Char} (h : d ≠ []) (hd : ∀ c ∈ d, c.isDigit = true) :
    isDigitRun d = true := by
  simp [isDigitRun, isEmpty_false_of_ne_nil h, List.all_eq_true]
  exact hd

lemma isCoreShape_parts {d1 d2 d3 : List Char}
    (h1 : d1 ≠ []) (hd1 : ∀ c ∈ d1, c.isDigit = true)
    (h2 : d2 ≠ []) (hd2 : ∀ c ∈ d2, c.isDigit = true)
    (h3 : d3 ≠ []) (hd3 : ∀ c ∈ d3, c.isDigit = true) :
    isCoreShape (d1 ++ '.' :: (d2 ++ '.' :: d3)) = true := by
  simp [isCoreShape, coreSplit_digits hd1, coreSplit_digits hd2,
    isDigitRun_of h1 hd1, isDigitRun_of h2 hd2, isDigitRun_of h3 hd3]

lemma mem_takeWhile_digit {c : Char} {l : List Char}
    (h : c ∈ l.takeWhile Char.isDigit) : c.isDigit = true :=
  List.mem_takeWhile_imp h

lemma matchCore_some {l m : List Char} (h : matchCore l = some m) :
    ∃ rest, l = m ++ rest ∧ isCoreShape m = true := by
  unfold matchCore at h
  split at h
  · exact absurd h (by simp)
  · rename_i he1
    split at h
    · rename_i r2 hdw1
      split at h
      · exact absurd h (by simp)
      · rename_i he2
        split at h
        · rename_i r4 hdw2
          split at h
          · exact absurd h (by simp)
          · rename_i he3
            have hm : m = l.takeWhile Char.isDigit ++
                '.' :: (r2.takeWhile Char.isDigit ++ '.' :: r4.takeWhile Char.isDigit) := by
              cases h
              rfl
            refine ⟨r4.dropWhile Char.isDigit, ?_, ?_⟩
            · rw [hm]
              have e1 : l = l.takeWhile Char.isDigit ++ ('.' :: r2) := by
                rw [← hdw1, List.takeWhile_append_dropWhile]
              have e2 : r2 = r2.takeWhile Char.isDigit ++ ('.' :: r4) := by
                rw [← hdw2, List.takeWhile_append_dropWhile]
              have e3 : r4 = r4.takeWhile Char.isDigit ++ r4.dropWhile Char.isDigit :=
                (List.takeWhile_append_dropWhile Char.isDigit r4).symm
              calc l = l.takeWhile Char.isDigit ++ ('.' :: r2) := e1
                _ = l.takeWhile Char.isDigit ++
                      ('.' :: (r2.takeWhile Char.isDigit ++ ('.' :: r4))) := by rw [← e2]
                _ = l.takeWhile Char.isDigit ++
                      ('.' :: (r2.takeWhile Char.isDigit ++
                        ('.' :: (r4.takeWhile Char.isDigit ++ r4.dropWhile Char.isDigit)))) := by
                      rw [← e3]
                _ = (l.takeWhile Char.isDigit ++
                      '.' :: (r2.takeWhile Char.isDigit ++ '.' :: r4.takeWhile Char.isDigit)) ++
                      r4.dropWhile Char.isDigit := by simp
            · rw [hm]
              refine isCoreShape_parts ?_ (fun c hc => mem_takeWhile_digit hc)
                ?_ (fun c hc => mem_takeWhile_digit hc) ?_ (fun c hc => mem_takeWhile_digit hc)
              · intro hnil
                rw [hnil] at he1
                exact he1 rfl
              · intro hnil
                rw [hnil] at he2
                exact he2 rfl
              · intro hnil
                rw [hnil] at he3
                exact he3 rfl
        · exact absurd h (by simp)
    · exact absurd h (by simp)

lemma searchCore_some {cs m : List Char} (h : searchCore cs = some m) :
    ∃ i, i < cs.length ∧ matchCore (cs.drop i) = some m := by
  induction cs with
  | nil => simp [searchCore] at h
  | cons c t ih =>
    rw [searchCore] at h
    cases hm : matchCore (c :: t) with
    | some m2 =>
      rw [hm] at h
      cases h
      exact ⟨0, by simp, hm⟩
    | none =>
      rw [hm] at h
      obtain ⟨i, hi, hmi⟩ := ih h
      exact ⟨i + 1, by simpa using hi, by simpa using hmi⟩

lemma hasNumericCore_of_searchCore {s : String} {m : List Char}
    (h : searchCore s.data = some m) : hasNumericCore s = true := by
  obtain ⟨i, hi, hmi⟩ := searchCore_some h
  obtain ⟨rest, hdec, hshape⟩ := matchCore_some hmi
  have htake : (s.data.drop i).take m.length = m := by
    rw [hdec]
    exact List.take_left m rest
  have hmlen : m.length ≤ s.data.length := by
    have h1 : m.length ≤ (s.data.drop i).length := by
      rw [hdec]
      simp
    calc m.length ≤ (s.data.drop i).length := h1
      _ ≤ s.data.length := by simp [List.length_drop]
  refine List.any_eq_true.2 ⟨i, List.mem_range.2 (Nat.lt_succ_of_lt hi), ?_⟩
  refine List.any_eq_true.2 ⟨m.length, List.mem_range.2 (Nat.lt_succ_of_le hmlen), ?_⟩
  rw [htake]
  exact hshape

lemma sudoExec_fst (w : World) (args : List String) :
    (sudoExec w args).1 = [Event.log (runningMsg args), Event.exec (sudoCmd args)] := by
  unfold sudoExec
  split <;> rfl

lemma wrapAnyErr_fst {α : Type} (pre : String) (x : M α) : (wrapAnyErr pre x).1 = x.1 := rfl

lemma wrapSudoErr_fst {α : Type} (pre : String) (x : M α) : (wrapSudoErr pre x).1 = x.1 := rfl

lemma mem_mbind {α β : Type} {x : M α} {f : α → M β} {e : Event}
    (he : e ∈ (mbind x f).1) : e ∈ x.1 ∨ ∃ a, e ∈ (f a).1 := by
  rcases x with ⟨t, r⟩
  cases r with
  | error err => exact Or.inl he
  | ok a =>
    rcases List.mem_append.1 he with h | h
    · exact Or.inl h
    · exact Or.inr ⟨a, h⟩

lemma aptRemove_not_mem_sudo_write (w : World) (fn c : String) :
    Event.exec aptRemoveCmd ∉ (sudo_write_file w fn c).1 := by
  intro he
  rcases mem_mbind he with h | ⟨a, h⟩
  · simp at h
  · rw [sudoExec_fst] at h
    simp [sudoCmd, aptRemoveCmd] at h

lemma aptRemove_not_mem_installAndConfigure (w : World) (v url env name key : String) :
    Event.exec aptRemoveCmd ∉ (installAndConfigure w v url env name key).1 := by
  intro he
  unfold installAndConfigure at he
  rcases mem_mbind he with h | ⟨_, h⟩
  · simp at h
  rcases mem_mbind h with h | ⟨_, h⟩
  · rw [wrapAnyErr_fst] at h
    unfold downloadAndRun at h
    rcases mem_mbind h with h | ⟨_, h⟩
    · simp at h
    rcases mem_mbind h with h | ⟨_, h⟩
    · rw [sudoExec_fst] at h
      simp [sudoCmd, aptRemoveCmd] at h
    · simp at h
  rcases mem_mbind h with h | ⟨_, h⟩
  · simp at h
  rcases mem_mbind h with h | ⟨_, h⟩
  · rw [sudoExec_fst] at h
    simp [sudoCmd, aptRemoveCmd] at h
  rcases mem_mbind h with h | ⟨_, h⟩
  · rw [sudoExec_fst] at h
    simp [sudoCmd, aptRemoveCmd] at h
  rcases mem_mbind h with h | ⟨_, h⟩
  · rw [sudoExec_fst] at h
    simp [sudoCmd, aptRemoveCmd] at h
  rcases mem_mbind h with h | ⟨_, h⟩
  · exact aptRemove_not_mem_sudo_write w _ _ h
  · exact aptRemove_not_mem_sudo_write w _ _ h

lemma mem_joinWith {sep : String} {l : List String} {f : String} (hf : f ∈ l) :
    ∃ a b, joinWith sep l = a ++ (f ++ b) := by
  induction l with
  | nil => cases hf
  | cons x xs ih =>
    cases xs with
    | nil =>
      rw [List.mem_singleton.1 hf]
      refine ⟨"", "", ?_⟩
      simp [joinWith]
    | cons y ys =>
      rcases List.mem_cons.1 hf with h | hmem
      · rw [h]
        exact ⟨"", sep ++ joinWith sep (y :: ys), by simp [joinWith, String.append_assoc]⟩
      · obtain ⟨a, b, hab⟩ := ih hmem
        exact ⟨x ++ sep ++ a, b, by simp [joinWith, hab, String.append_assoc]⟩

/-- C9: for every privileged command execution, a non-zero exit makes the
execution fail with a SudoError whose message embeds the captured stdout and
stderr of the command, while a zero exit returns nothing and discards the
captured output (the result carries no output, only the log line and the
execution event). -/
theorem sudo_captures_output_spec (w : World) (args : List String) :
    (w.exitCode (sudoCmd args) = 0 →
      sudoExec w args =
        ([Event.log (runningMsg args), Event.exec (sudoCmd args)], Except.ok ())) ∧
    (w.exitCode (sudoCmd args) ≠ 0 →
      sudoExec w args =
        ([Event.log (runningMsg args), Event.exec (sudoCmd args)],
         Except.error (PErr.sudoError
           (calledProcessErrorMsg (sudoCmd args) (w.exitCode (sudoCmd args)) ++
            "\nSTDOUT:\n" ++ w.stdout (sudoCmd args) ++
            "\nSTDERR:" ++ w.stderr (sudoCmd args))))) := by
  constructor <;> intro h <;> simp [sudoExec, h]

/-- Witness for C9 at a concrete failing world: the error embeds the
captured output OUT and ERR. -/
theorem sudo_captures_output_witness :
    sudoExec wFail ["apt-get", "remove", "chef", "-y"] =
      ([Event.log (runningMsg ["apt-get", "remove", "chef", "-y"]),
        Event.exec (sudoCmd ["apt-get", "remove", "chef", "-y"])],
       Except.error (PErr.sudoError
         (calledProcessErrorMsg (sudoCmd ["apt-get", "remove", "chef", "-y"]) 1 ++
          "\nSTDOUT:\nOUT\nSTDERR:ERR"))) :=
  (sudo_captures_output_spec wFail ["apt-get", "remove", "chef", "-y"]).2 (by decide)

/-- C1 (documents the code bug): the apt_platform probe returns
`which_exitcode != 0`, so on a host where apt-get IS present (the which
probe exits 0) uninstall_chef logs that uninstall is unimplemented and
returns without running any removal command, and on a host where apt-get is
ABSENT it attempts `apt-get remove chef -y` - exactly the opposite of the
claimed (and, per the log texts in the two branches, clearly intended)
behaviour. -/
theorem uninstall_platform_check_inverted (w : World) :
    (w.exitCode whichAptCmd = 0 →
      uninstall_chef w =
        ([Event.exec whichAptCmd,
          Event.log "Chef uninstall is unimplemented for this platform, proceeding anyway"],
         Except.ok ())) ∧
    (w.exitCode whichAptCmd ≠ 0 →
      (uninstall_chef w).1 =
        [Event.exec whichAptCmd,
         Event.log "Uninstalling old chef-client via apt-get",
         Event.log (runningMsg ["apt-get", "remove", "chef", "-y"]),
         Event.exec aptRemoveCmd]) := by
  constructor <;> intro h
  · simp [uninstall_chef, h]
  · simp only [uninstall_chef, h, if_pos, ne_eq, not_false_iff, if_true, mbind]
    rw [wrapSudoErr_fst, sudoExec_fst]
    rfl

/-- Witness for C1: on a host where every command succeeds (so apt-get is
present), uninstall_chef skips the removal. -/
theorem uninstall_platform_check_witness :
    uninstall_chef wAllOk =
      ([Event.exec whichAptCmd,
        Event.log "Chef uninstall is unimplemented for this platform, proceeding anyway"],
       Except.ok ()) :=
  (uninstall_platform_check_inverted wAllOk).1 (by decide)

/-- C2 counterexample: a concrete task invocation whose chef_attributes
payload is the string "not json" (not valid JSON).  The invocation does end
with the JSON-validation ChefError, but only AFTER two privileged commands
(`sudo which chef-client` and `sudo chef-client --version`) have already
executed during setup, so the claim that the failure happens before any
privileged command is executed is false. -/
theorem malformed_json_after_privileged_commands :
    install_task wAllOk kwBadJson =
      ([Event.exec whichChefCmd, Event.exec chefVersionCmd],
       Except.error (PErr.chefError "Failed json validation of chef attributes:\nnot json")) ∧
    Event.exec whichChefCmd ∈ (install_task wAllOk kwBadJson).1 := by
  constructor
  · rfl
  · exact List.mem_of_mem_head? rfl

/-- C2 amended: within the agent invocation itself, a string attributes
payload that fails JSON parsing makes run_chef fail immediately with the
ChefError, with an empty event trace: no command is executed and no file is
written by run_chef. -/
theorem run_chef_malformed_json_fails_fast (w : World) (runlist s : String)
    (hs : s.isEmpty = false) (hj : w.jsonLoads s = none) :
    run_chef w runlist (PyVal.str s) =
      ([], Except.error
        (PErr.chefError ("Failed json validation of chef attributes:\n" ++ s))) := by
  simp [run_chef, hs, hj, mbind]

/-- Witness for the amended C2 at a concrete world and payload. -/
theorem run_chef_malformed_json_witness :
    run_chef wAllOk "recipe[app]" (PyVal.str "not json") =
      ([], Except.error
        (PErr.chefError "Failed json validation of chef attributes:\nnot json")) :=
  run_chef_malformed_json_fails_fast wAllOk "recipe[app]" "not json" rfl rfl

/-- C10: the empty string attributes payload is not a JSON-validation error:
because of `attributes or ...` it is parsed as the empty JSON object, so
run_chef behaves exactly as if it had been handed the empty mapping, and the
attribute file written for the agent holds the empty JSON object. -/
theorem run_chef_empty_string_attributes (w : World) (runlist : String)
    (h : w.jsonLoads "\x7b\x7d" = some (Json.jobj [])) :
    run_chef w runlist (PyVal.str "") = run_chef w runlist (PyVal.json (Json.jobj [])) ∧
    (run_chef w runlist (PyVal.str "")).1.head? =
      some (Event.writeAttrFile (PyVal.json (Json.jobj []))) := by
  have h1 : run_chef w runlist (PyVal.str "") = run_chef w runlist (PyVal.json (Json.jobj [])) := by
    simp [run_chef, show ("" : String).isEmpty = true from rfl, h]
  refine ⟨h1, ?_⟩
  rw [h1]
  simp only [run_chef, mbind]
  rfl

/-- Witness for C10 at a concrete world. -/
theorem run_chef_empty_string_witness :
    (run_chef wAllOk "recipe[app]" (PyVal.str "")).1.head? =
      some (Event.writeAttrFile (PyVal.json (Json.jobj []))) :=
  (run_chef_empty_string_attributes wAllOk "recipe[app]" rfl).2

/-- C3 counterexample: a concrete invocation that is missing the required
chef_install_runlist parameter (and the attributes payload) but carries the
five setup fields.  It does not fail before any subprocess with a domain
error: the two setup subprocesses run first, and the eventual failure is a
Python TypeError, not a ChefError, and names no field. -/
theorem missing_runlist_raises_type_error :
    install_task wAllOk kwFive =
      ([Event.exec whichChefCmd, Event.exec chefVersionCmd],
       Except.error (PErr.typeError "install() takes at least 2 arguments")) ∧
    Event.exec whichChefCmd ∈ (install_task wAllOk kwFive).1 := by
  constructor
  · rfl
  · exact List.mem_of_mem_head? rfl

/-- C3 amended: an invocation missing one or more of the five setup fields
checked by set_up_chef_client fails with a ChefError before any event at
all (in particular before any subprocess), and the error message names
every missing checked field. -/
theorem missing_setup_fields_fail_fast (w : World) (body : Kwargs → M Unit) (kw : Kwargs)
    (h : missingFields kw ≠ []) :
    set_up_chef_client w body kw =
      ([], Except.error (PErr.chefError (missingMsg (missingFields kw)))) ∧
    ∀ f ∈ requiredFields, lookupKw kw f = none →
      ∃ a b, missingMsg (missingFields kw) = a ++ (f ++ b) := by
  constructor
  · unfold set_up_chef_client
    have hne : (missingFields kw).isEmpty = false := by
      cases hm : missingFields kw with
      | nil => exact absurd hm h
      | cons x xs => rfl
    simp [hne]
  · intro f hf hnone
    have hmem : f ∈ missingFields kw := List.mem_filter.2 ⟨hf, by simp [hnone]⟩
    obtain ⟨a, b, hab⟩ := @mem_joinWith ", " (missingFields kw) f hmem
    refine ⟨"The following required field(s) are missing: " ++ a, b, ?_⟩
    simp [missingMsg, hab, String.append_assoc]

/-- Witness for the amended C3: chef_version alone is supplied, the wrapper
fails with the ChefError naming the missing fields and performs no event. -/
theorem missing_setup_fields_witness :
    set_up_chef_client wAllOk emptyBody kwOnlyVersion =
      ([], Except.error (PErr.chefError (missingMsg (missingFields kwOnlyVersion)))) :=
  (missing_setup_fields_fail_fast wAllOk emptyBody kwOnlyVersion (by decide)).1

/-- C5: when chef-client is installed (the which probe succeeds, the version
output is non-empty) and its version compares equal to the desired one,
install_chef performs exactly the two probe commands and returns: no
uninstall, no install and no configuration-file write appears in the
trace. -/
theorem install_chef_noop_on_equal_versions (w : World) (v url env name key : String)
    (h1 : w.exitCode whichChefCmd = 0)
    (h2 : w.exitCode chefVersionCmd = 0)
    (h3 : (w.stdout chefVersionCmd).isEmpty = false)
    (h4 : equal_versions (w.stdout chefVersionCmd) v = Except.ok true) :
    install_chef w v url env name key =
      ([Event.exec whichChefCmd, Event.exec chefVersionCmd], Except.ok ()) := by
  simp [install_chef, current_chef_version, h1, h2, h3, h4, mbind, mret]

/-- Witness for C5 at a concrete world reporting Chef 11.4.4. -/
theorem install_chef_noop_witness :
    install_chef wAllOk "11.4.4" "https://chef.example" "_default" "chef-validator" "PEMDATA" =
      ([Event.exec whichChefCmd, Event.exec chefVersionCmd], Except.ok ()) :=
  install_chef_noop_on_equal_versions wAllOk "11.4.4" "https://chef.example" "_default"
    "chef-validator" "PEMDATA" rfl rfl rfl rfl

/-- C6: when the which probe reports chef-client absent, install_chef goes
straight from the probe into the fresh-install-and-configure tail, and no
apt-get removal command ever appears in its trace. -/
theorem install_chef_fresh_install_when_absent (w : World) (v url env name key : String)
    (h : w.exitCode whichChefCmd ≠ 0) :
    install_chef w v url env name key =
      (Event.exec whichChefCmd :: (installAndConfigure w v url env name key).1,
       (installAndConfigure w v url env name key).2) ∧
    Event.exec aptRemoveCmd ∉ (install_chef w v url env name key).1 := by
  have heq : install_chef w v url env name key =
      (Event.exec whichChefCmd :: (installAndConfigure w v url env name key).1,
       (installAndConfigure w v url env name key).2) := by
    simp [install_chef, current_chef_version, h, mbind]
  refine ⟨heq, ?_⟩
  rw [heq]
  intro he
  rcases List.mem_cons.1 he with h2 | h2
  · simp [aptRemoveCmd, sudoCmd, whichChefCmd] at h2
  · exact aptRemove_not_mem_installAndConfigure w v url env name key h2

/-- Witness for C6 on a host without chef-client. -/
theorem install_chef_fresh_install_witness :
    Event.exec aptRemoveCmd ∉
      (install_chef wNoChef "11.4.4" "https://chef.example" "_default"
        "chef-validator" "PEMDATA").1 :=
  (install_chef_fresh_install_when_absent wNoChef "11.4.4" "https://chef.example" "_default"
    "chef-validator" "PEMDATA" (by decide)).2

/-- C7: when chef-client is installed (probe succeeds, non-empty version
output) and the versions compare unequal, install_chef runs the uninstall
first and the fresh-install-and-configure tail after it (the tail is only
reached if the uninstall succeeds, since sequencing stops on error). -/
theorem install_chef_reinstall_on_mismatch (w : World) (v url env name key : String)
    (h1 : w.exitCode whichChefCmd = 0)
    (h2 : w.exitCode chefVersionCmd = 0)
    (h3 : (w.stdout chefVersionCmd).isEmpty = false)
    (h4 : equal_versions (w.stdout chefVersionCmd) v = Except.ok false) :
    install_chef w v url env name key =
      (Event.exec whichChefCmd :: Event.exec chefVersionCmd ::
         (mbind (uninstall_chef w) (fun _ => installAndConfigure w v url env name key)).1,
       (mbind (uninstall_chef w) (fun _ => installAndConfigure w v url env name key)).2) := by
  conv_lhs => rw [install_chef]
  simp [current_chef_version, h1, h2, h3, h4, mbind, mret]

/-- Witness for C7 at a concrete world with Chef 11.2.0 installed and
11.4.4 desired. -/
theorem install_chef_reinstall_witness :
    install_chef wMismatch "11.4.4" "https://chef.example" "_default" "chef-validator" "PEMDATA" =
      (Event.exec whichChefCmd :: Event.exec chefVersionCmd ::
         (mbind (uninstall_chef wMismatch)
           (fun _ => installAndConfigure wMismatch "11.4.4" "https://chef.example" "_default"
             "chef-validator" "PEMDATA")).1,
       (mbind (uninstall_chef wMismatch)
         (fun _ => installAndConfigure wMismatch "11.4.4" "https://chef.example" "_default"
           "chef-validator" "PEMDATA")).2) :=
  install_chef_reinstall_on_mismatch wMismatch "11.4.4" "https://chef.example" "_default"
    "chef-validator" "PEMDATA" rfl rfl rfl rfl

/-- C4: two version strings made of the same x.y.z numeric core surrounded
by digit-free text compare equal under equal_versions, whatever the
surrounding text is. -/
theorem equal_versions_same_numeric_core
    (d1 d2 d3 p1 q1 p2 q2 : List Char)
    (h1 : d1 ≠ []) (hd1 : ∀ c ∈ d1, c.isDigit = true)
    (h2 : d2 ≠ []) (hd2 : ∀ c ∈ d2, c.isDigit = true)
    (h3 : d3 ≠ []) (hd3 : ∀ c ∈ d3, c.isDigit = true)
    (hp1 : ∀ c ∈ p1, c.isDigit = false) (hq1 : ∀ c ∈ q1, c.isDigit = false)
    (hp2 : ∀ c ∈ p2, c.isDigit = false) (hq2 : ∀ c ∈ q2, c.isDigit = false) :
    equal_versions
      (String.mk (p1 ++ (d1 ++ '.' :: (d2 ++ '.' :: d3)) ++ q1))
      (String.mk (p2 ++ (d1 ++ '.' :: (d2 ++ '.' :: d3)) ++ q2)) = Except.ok true := by
  have core1 : searchCore (p1 ++ (d1 ++ '.' :: (d2 ++ '.' :: d3)) ++ q1) =
      some (d1 ++ '.' :: (d2 ++ '.' :: d3)) := by
    rw [List.append_assoc, searchCore_append_nondigit hp1]
    have hre : (d1 ++ '.' :: (d2 ++ '.' :: d3)) ++ q1 =
        d1 ++ '.' :: (d2 ++ '.' :: (d3 ++ q1)) := by simp
    rw [hre]
    exact searchCore_of_core h1 hd1 h2 hd2 h3 hd3 hq1
  have core2 : searchCore (p2 ++ (d1 ++ '.' :: (d2 ++ '.' :: d3)) ++ q2) =
      some (d1 ++ '.' :: (d2 ++ '.' :: d3)) := by
    rw [List.append_assoc, searchCore_append_nondigit hp2]
    have hre : (d1 ++ '.' :: (d2 ++ '.' :: d3)) ++ q2 =
        d1 ++ '.' :: (d2 ++ '.' :: (d3 ++ q2)) := by simp
    rw [hre]
    exact searchCore_of_core h1 hd1 h2 hd2 h3 hd3 hq2
  simp only [equal_versions, extract_numeric_version, data_mk, core1, core2]
  exact congrArg Except.ok (beq_self_eq_true (String.mk (d1 ++ '.' :: (d2 ++ '.' :: d3))))

/-- Witness for C4: the probed output of Chef 11.4.4 equals the desired
string 11.4.4-rc because both contain the same 11.4.4 core. -/
theorem equal_versions_same_core_witness :
    equal_versions
      (String.mk (['C', 'h', 'e', 'f', ':', ' '] ++
        (['1', '1'] ++ '.' :: (['4'] ++ '.' :: ['4'])) ++ ['\n']))
      (String.mk ([] ++
        (['1', '1'] ++ '.' :: (['4'] ++ '.' :: ['4'])) ++ ['-', 'r', 'c'])) =
      Except.ok true :=
  equal_versions_same_numeric_core ['1', '1'] ['4'] ['4']
    ['C', 'h', 'e', 'f', ':', ' '] ['\n'] [] ['-', 'r', 'c']
    (by decide) (by decide) (by decide) (by decide) (by decide) (by decide)
    (by decide) (by decide) (by decide) (by decide)

/-- C8: a version string with no x.y.z numeric substring makes the version
comparison fail with the ChefError naming it, in either argument position;
it never returns a boolean. -/
theorem equal_versions_error_without_core (v1 v2 : String)
    (h : hasNumericCore v1 = false) :
    equal_versions v1 v2 = Except.error (PErr.chefError (chefVersionErrMsg v1)) ∧
    ∀ r : Bool, equal_versions v2 v1 ≠ Except.ok r := by
  have hs : searchCore v1.data = none := by
    cases hsc : searchCore v1.data with
    | none => rfl
    | some m =>
      have ht := hasNumericCore_of_searchCore hsc
      rw [h] at ht
      exact Bool.noConfusion ht
  have hv1 : extract_numeric_version v1 =
      Except.error (PErr.chefError (chefVersionErrMsg v1)) := by
    simp [extract_numeric_version, hs]
  constructor
  · unfold equal_versions
    rw [hv1]
    rfl
  · intro r hr
    unfold equal_versions at hr
    cases hex : extract_numeric_version v2 with
    | error e =>
      rw [hex] at hr
      exact Except.noConfusion hr
    | ok a =>
      rw [hex, hv1] at hr
      exact Except.noConfusion hr

/-- Witness for C8: the truncated string 11.4 has no x.y.z core and the
comparison fails with the ChefError naming it. -/
theorem equal_versions_error_witness :
    equal_versions "11.4" "11.4.4" =
      Except.error (PErr.chefError (chefVersionErrMsg "11.4")) :=
  (equal_versions_error_without_core "11.4" "11.4.4" rfl).1
